import Mathlib

/-!
Verification development for the unite-backend CSV bulk-import pipeline.

The definitions below are a shallow embedding of the TypeScript source:
- the Joi row schema `csvRowSchema` and the per-row validation loop of
  `CsvService.processCsvFile` (src/services/csvService.ts),
- `LeadModel.bulkCreate` together with the MySQL `INSERT IGNORE` semantics
  against the `UNIQUE KEY unique_phone_email (phone, email)` index of the
  `leads` table (src/script/init-mysql.sql),
- `S3Service.generateCsvUploadUrl` key generation,
- `CsvService.uploadCsvForProcessing`, `CsvService.sendToProcessingQueue`,
- the worker loop body `CsvProcessor.pollQueue` (src/workers/csvProcessor.ts).

Raw CSV records are modelled as association lists from header-derived field
names to raw string values, exactly the shape `csv-parser` hands to the
validation callback.
-/

set_option autoImplicit false

deriving instance DecidableEq for Except

namespace Unite

/-- One raw record as decoded by csv-parser: field name to raw string value. -/
abbrev RawRecord := List (String × String)

/-- A validated contact row (`CsvRow` in csvService.ts). -/
structure CsvRow where
  name : String
  phone : String
  email : Option String
  source : Option String
deriving Repr, DecidableEq

/-- One field-level validation failure produced by the Joi schema
(`error.details` entry): the offending field plus its message. -/
structure FieldError where
  field : String
  message : String
deriving Repr, DecidableEq

/-- Digit character test for the phone pattern. -/
def isAsciiDigit (c : Char) : Bool :=
  decide ('0' ≤ c) && decide (c ≤ '9')

/-- Core of the Joi phone pattern after the optional leading plus sign:
one character in [1-9] followed by 1 to 14 digits. -/
def phonePatternCore : List Char → Bool
  | [] => false
  | c :: rest =>
    decide ('1' ≤ c) && decide (c ≤ '9') && rest.all isAsciiDigit &&
      decide (1 ≤ rest.length) && decide (rest.length ≤ 14)

/-- The Joi pattern of csvRowSchema for phone, an anchored match of
`\+?[1-9]\d\x7b1,14\x7d` (a leading plus sign is optional). -/
def phoneMatches (s : String) : Bool :=
  match s.data with
  | '+' :: rest => phonePatternCore rest
  | l => phonePatternCore l

/-- Split a character list at every occurrence of a separator. -/
def splitOnChar (sep : Char) : List Char → List (List Char)
  | [] => [[]]
  | c :: rest =>
    let r := splitOnChar sep rest
    if c = sep then [] :: r
    else
      match r with
      | [] => [[c]]
      | h :: t => (c :: h) :: t

/-- Modelled from the spec: the email rule says `email: optional, must be a
syntactically valid address if present`; the concrete syntax check lives in
the Joi library, not in this repository, so a plain syntactic address check
is used (nonempty local part, one at sign, dotted nonempty domain). -/
def emailValid (s : String) : Bool :=
  match splitOnChar '@' s.data with
  | [loc, dom] =>
    !loc.isEmpty && !dom.isEmpty && dom.contains '.' &&
      !(dom.head? == some '.') && !(dom.getLast? == some '.')
  | _ => false

/-- Joi checks for `name: Joi.string().required().min(2).max(255)`.
The length bounds apply to the raw string: Joi does not trim. -/
def nameErrors (rec : RawRecord) : List FieldError :=
  match List.lookup "name" rec with
  | none => [⟨"name", "name is required"⟩]
  | some s =>
    if s = "" then [⟨"name", "name is not allowed to be empty"⟩]
    else
      (if s.length < 2 then
        [⟨"name", "name length must be at least 2 characters long"⟩] else [])
      ++ (if 255 < s.length then
        [⟨"name", "name length must be at most 255 characters long"⟩] else [])

/-- Joi checks for `phone: Joi.string().required().pattern(...)`. -/
def phoneErrors (rec : RawRecord) : List FieldError :=
  match List.lookup "phone" rec with
  | none => [⟨"phone", "phone is required"⟩]
  | some s =>
    if s = "" then [⟨"phone", "phone is not allowed to be empty"⟩]
    else if phoneMatches s then []
    else [⟨"phone", "phone fails to match the required pattern"⟩]

/-- Joi checks for `email: Joi.string().email().optional().allow(empty)`. -/
def emailErrors (rec : RawRecord) : List FieldError :=
  match List.lookup "email" rec with
  | none => []
  | some s =>
    if s = "" then []
    else if emailValid s then []
    else [⟨"email", "email must be a valid email"⟩]

/-- Joi checks for `source: Joi.string().optional().max(100)`. -/
def sourceErrors (rec : RawRecord) : List FieldError :=
  match List.lookup "source" rec with
  | none => []
  | some s =>
    if s = "" then [⟨"source", "source is not allowed to be empty"⟩]
    else if 100 < s.length then
      [⟨"source", "source length must be at most 100 characters long"⟩]
    else []

/-- All field errors of one record, gathered with `abortEarly: false`
(all violated-field messages are collected, not just the first). -/
def rowFieldErrors (rec : RawRecord) : List FieldError :=
  nameErrors rec ++ phoneErrors rec ++ emailErrors rec ++ sourceErrors rec

/-- `csvRowSchema.validate(data, \x7b abortEarly: false, stripUnknown: true,
convert: true \x7d)`: either the typed row (unknown fields dropped) or the
collected field errors. -/
def validateRow (rec : RawRecord) : Except (List FieldError) CsvRow :=
  let errs := rowFieldErrors rec
  if errs.isEmpty then
    .ok { name := (List.lookup "name" rec).getD "",
          phone := (List.lookup "phone" rec).getD "",
          email := List.lookup "email" rec,
          source := List.lookup "source" rec }
  else .error errs

/-- One entry of `ImportJob.validation_errors`: the 1-based data-row number,
the (normalized) raw record and the joined error message, as pushed by the
parse loop of `CsvService.processCsvFile`. -/
structure RowError where
  row : Nat
  data : RawRecord
  error : String
deriving Repr, DecidableEq

/-- `error.details.map((d) => d.message).join(comma-space)`. -/
def renderErrors (errs : List FieldError) : String :=
  String.intercalate ", " (errs.map (·.message))

/-- The in-place normalization before validation: an empty-string `email`
or `source` entry is deleted from the record. -/
def normalizeRecord (rec : RawRecord) : RawRecord :=
  rec.filter (fun p =>
    !(p.1 == "email" && p.2 == "") && !(p.1 == "source" && p.2 == ""))

/-- The csv-parser data-event loop of `CsvService.processCsvFile`
(lines 103-132): `rowNumber` starts at 0 and is incremented before each
record is normalized and validated; valid rows and row errors are
accumulated separately. -/
def processRowsAux : Nat → List RawRecord → List CsvRow × List RowError
  | _, [] => ([], [])
  | rowNumber, rec :: rest =>
    let n := rowNumber + 1
    let normed := normalizeRecord rec
    let (rows, errs) := processRowsAux n rest
    match validateRow normed with
    | .error es => (rows, ⟨n, normed, renderErrors es⟩ :: errs)
    | .ok v => (v :: rows, errs)

/-- Parse/validate all data records of one CSV (header row already consumed
as field names by csv-parser). -/
def processRows (records : List RawRecord) : List CsvRow × List RowError :=
  processRowsAux 0 records

/-- One row of the MySQL `leads` table (columns touched by the import). -/
structure Lead where
  name : String
  phone : String
  email : Option String
  status : String
  source : String
  assigned_to : Option Nat
  image_url : Option String
deriving Repr, DecidableEq

/-- The value tuple `LeadModel.bulkCreate` builds for one csv row:
`[name, phone, email || null, LeadStatus.NEW, source || csv_import,
null, null]` (a JavaScript empty string is falsy). -/
def rowToLead (r : CsvRow) : Lead :=
  { name := r.name,
    phone := r.phone,
    email := match r.email with
             | some e => if e = "" then none else some e
             | none => none,
    status := "new",
    source := match r.source with
              | some s => if s = "" then "csv_import" else s
              | none => "csv_import",
    assigned_to := none,
    image_url := none }

/-- Conflict under the `UNIQUE KEY unique_phone_email (phone, email)` index
of init-mysql.sql: two rows collide exactly when the phones are equal and
the emails are equal and non-NULL (SQL NULL never compares equal, so a NULL
email never collides). -/
def sameUniqueKey (a b : Lead) : Bool :=
  a.phone == b.phone &&
    (match a.email, b.email with
     | some x, some y => x == y
     | _, _ => false)

/-- MySQL `INSERT IGNORE` over the value tuples, in order: a tuple that
collides with the current table contents (including tuples inserted earlier
in the same statement) is skipped; `affectedRows` counts inserted tuples. -/
def insertIgnoreAll : List Lead → List Lead → List Lead × Nat
  | store, [] => (store, 0)
  | store, l :: ls =>
    if store.any (fun x => sameUniqueKey x l) then insertIgnoreAll store ls
    else
      let (st, n) := insertIgnoreAll (store ++ [l]) ls
      (st, n + 1)

/-- `LeadModel.bulkCreate`: an empty batch returns 0 without issuing any
store operation (the Bool records whether a statement was issued);
otherwise one `INSERT IGNORE` statement is executed and its
`affectedRows` returned. -/
def bulkCreate (store : List Lead) (rows : List CsvRow) :
    List Lead × Nat × Bool :=
  if rows.isEmpty then (store, 0, false)
  else
    let p := insertIgnoreAll store (rows.map rowToLead)
    (p.1, p.2, true)

/-- The persisted per-job status document (`CsvLog`). Timestamps are
abstract instants (Nat). -/
structure CsvLog where
  file_name : String
  s3_key : String
  upload_user_id : Int
  status : String
  total_rows : Nat
  successful_imports : Nat
  failed_imports : Nat
  validation_errors : List RowError
  error_report : Option String
  processing_time_ms : Option Nat
  started_at : Option Nat
  completed_at : Option Nat
deriving Repr, DecidableEq

/-- The document `CsvService.uploadCsvForProcessing` creates. -/
def newCsvLog (fileName key : String) (uid : Int) : CsvLog :=
  { file_name := fileName,
    s3_key := key,
    upload_user_id := uid,
    status := "pending",
    total_rows := 0,
    successful_imports := 0,
    failed_imports := 0,
    validation_errors := [],
    error_report := none,
    processing_time_ms := none,
    started_at := none,
    completed_at := none }

/-- Outcome of the download-and-parse stage (signed-URL fetch, HTTP status
check, csv-parser stream): either the decoded data records or the thrown
error message. This is the modelled fallible step of the pipeline. -/
inductive DownloadOutcome where
  | ok (records : List RawRecord)
  | fail (msg : String)
deriving Repr, DecidableEq

/-- `CsvService.processCsvFile`: marks the job processing, then runs
download, parse/validate and bulk write, then writes the terminal status.
The catch block writes `failed` with `error_report`; `failWriteOk = false`
models the one case in which even that write throws, making the whole call
reject. The returned Bool is true when the call resolved (did not throw).
Mongo writes are modelled as pure updates of the one referenced log. -/
def processCsvFile (log : CsvLog) (dl : DownloadOutcome) (store : List Lead)
    (startTime endTime : Nat) (failWriteOk : Bool) :
    CsvLog × List Lead × Bool :=
  let log1 := { log with status := "processing", started_at := some startTime }
  match dl with
  | .fail msg =>
    if failWriteOk then
      ({ log1 with status := "failed",
                   error_report := some msg,
                   completed_at := some endTime }, store, true)
    else (log1, store, false)
  | .ok records =>
    let (rows, errors) := processRows records
    let (store2, n, _) := bulkCreate store rows
    ({ log1 with status := "completed",
                 total_rows := rows.length + errors.length,
                 successful_imports := n,
                 failed_imports := errors.length,
                 validation_errors := errors,
                 processing_time_ms := some (endTime - startTime),
                 completed_at := some endTime }, store2, true)

/-- The per-message body of `CsvProcessor.pollQueue` (lines 54-69): await
`processCsvFile`, then delete the message; the surrounding catch swallows a
rejection and leaves the message undeleted for redelivery. The returned
Bool is true exactly when `DeleteMessageCommand` was issued. -/
def pollHandleMessage (log : CsvLog) (dl : DownloadOutcome)
    (store : List Lead) (startTime endTime : Nat) (failWriteOk : Bool) :
    CsvLog × List Lead × Bool :=
  let r := processCsvFile log dl store startTime endTime failWriteOk
  (r.1, r.2.1, r.2.2)

/-- A JSON value as far as the job message body needs. -/
inductive JsonVal where
  | jstr (s : String)
  | jnum (n : Int)
deriving Repr, DecidableEq

/-- An SQS message as built by `SendMessageCommand`: the JSON body fields
(in serialization order) and the message attributes
(name, DataType, StringValue). -/
structure SqsMessage where
  bodyFields : List (String × JsonVal)
  attributes : List (String × String × String)
deriving Repr, DecidableEq

/-- `CsvService.sendToProcessingQueue`: the body is
`JSON.stringify(\x7b csvLogId, s3Key, userId \x7d)` and the one message
attribute is `jobType = csv_processing` of DataType String. -/
def sendToProcessingQueue (csvLogId s3Key : String) (userId : Int) :
    SqsMessage :=
  { bodyFields := [ ("csvLogId", .jstr csvLogId),
                    ("s3Key", .jstr s3Key),
                    ("userId", .jnum userId) ],
    attributes := [("jobType", "String", "csv_processing")] }

/-- What the worker reads from a parsed message body:
`body.csvLogId` and `body.s3Key` (csvProcessor.ts lines 56-60). -/
def workerReadsJob (m : SqsMessage) : Option JsonVal × Option JsonVal :=
  (List.lookup "csvLogId" m.bodyFields, List.lookup "s3Key" m.bodyFields)

/-- ASCII whitespace, for the JavaScript regex class backslash-s. -/
def isSpaceChar (c : Char) : Bool :=
  c == ' ' || c == '\t' || c == '\n' || c == '\r' ||
    c == Char.ofNat 11 || c == Char.ofNat 12

/-- `fileName.replace(/\s+/g, underscore)`: each maximal whitespace run
becomes a single underscore. The flag says whether the previous character
was whitespace. -/
def squashWsAux : Bool → List Char → List Char
  | _, [] => []
  | prevWs, c :: rest =>
    if isSpaceChar c then
      if prevWs then squashWsAux true rest
      else '_' :: squashWsAux true rest
    else c :: squashWsAux false rest

/-- The sanitized file name used inside the storage key. -/
def sanitizeFileName (s : String) : String :=
  ⟨squashWsAux false s.data⟩

/-- Decimal digit character. -/
def digitChar : Nat → Char
  | 0 => '0' | 1 => '1' | 2 => '2' | 3 => '3' | 4 => '4'
  | 5 => '5' | 6 => '6' | 7 => '7' | 8 => '8' | _ => '9'

/-- Decimal printing of a natural number, most significant digit first,
driven by a fuel argument so that the recursion is structural. The fuel
never runs out when the number is below 10 to the fuel. -/
def natToDecimalCore : Nat → Nat → List Char → List Char
  | 0, _, acc => acc
  | fuel + 1, n, acc =>
    if n < 10 then digitChar n :: acc
    else natToDecimalCore fuel (n / 10) (digitChar (n % 10) :: acc)

/-- Decimal representation of a natural number as a string (JavaScript
string interpolation of an integer timestamp). -/
def natToDecimal (n : Nat) : String :=
  ⟨natToDecimalCore (n + 1) n []⟩

/-- `S3Service.generateCsvUploadUrl` key generation (line 80):
`csv/` + `Date.now()` + `-` + whitespace-sanitized original file name. -/
def generateCsvKey (now : Nat) (fileName : String) : String :=
  "csv/" ++ natToDecimal now ++ "-" ++ sanitizeFileName fileName

/-- Observable side effects of the upload path, in program order. -/
inductive UploadEffect where
  | s3Put (key : String)
  | logCreate
  | queueSend
deriving Repr, DecidableEq

/-- `CsvService.uploadCsvForProcessing`: MIME-type and size checks throw
before any effect; on success the bytes are staged under the generated key,
the pending log is created, and the job message is enqueued. The result is
the ordered effect list plus either the thrown message or the key. -/
def uploadCsvForProcessing (mimetype : String) (size : Nat)
    (fileName : String) (now : Nat) :
    List UploadEffect × Except String String :=
  if mimetype ≠ "text/csv" ∧ mimetype ≠ "application/vnd.ms-excel" then
    ([], .error "Only CSV files are allowed")
  else if 10 * 1024 * 1024 < size then
    ([], .error "File size must not exceed 10MB")
  else
    let key := generateCsvKey now fileName
    ([.s3Put key, .logCreate, .queueSend], .ok key)

/-- Trimming as the phrase trimmed length reads in the spec: ASCII
whitespace stripped from both ends of the character list. -/
def trimChars (l : List Char) : List Char :=
  ((l.dropWhile isSpaceChar).reverse.dropWhile isSpaceChar).reverse

/-- Decimal value of a digit character. -/
def digitVal (c : Char) : Nat := c.toNat - 48

/-- Left fold reading a digit list as a decimal number on top of a seed. -/
def parseFrom (v : Nat) (l : List Char) : Nat :=
  l.foldl (fun a c => a * 10 + digitVal c) v

/-- The error entry the loop records for one data record at 1-based number
`n`, when validation fails. -/
def rowErrorFor (n : Nat) (rec : RawRecord) : Option RowError :=
  match validateRow (normalizeRecord rec) with
  | .error es => some ⟨n, normalizeRecord rec, renderErrors es⟩
  | .ok _ => none

theorem digitChar_ne_dash (d : Nat) : digitChar d ≠ '-' := by
  unfold digitChar; split <;> decide

theorem digitVal_digitChar {d : Nat} (h : d < 10) :
    digitVal (digitChar d) = d := by
  interval_cases d <;> decide

theorem mem_natToDecimalCore (fuel : Nat) :
    ∀ (n : Nat) (acc : List Char) (c : Char),
      c ∈ natToDecimalCore fuel n acc →
      c ∈ acc ∨ ∃ d, c = digitChar d := by
  induction fuel with
  | zero => intro n acc c hc; exact Or.inl hc
  | succ fuel ih =>
    intro n acc c hc
    unfold natToDecimalCore at hc
    split at hc
    · rcases List.mem_cons.mp hc with h | h
      · exact Or.inr ⟨n, h⟩
      · exact Or.inl h
    · rcases ih (n / 10) (digitChar (n % 10) :: acc) c hc with h | h
      · rcases List.mem_cons.mp h with h2 | h2
        · exact Or.inr ⟨n % 10, h2⟩
        · exact Or.inl h2
      · exact Or.inr h

theorem dash_not_mem_natToDecimal (n : Nat) :
    '-' ∉ (natToDecimal n).data := by
  intro hc
  rcases mem_natToDecimalCore (n + 1) n [] '-' hc with h | ⟨d, hd⟩
  · simp at h
  · exact digitChar_ne_dash d hd.symm

theorem parseFrom_natToDecimalCore (fuel : Nat) :
    ∀ (n : Nat) (acc : List Char), n < 10 ^ fuel →
      parseFrom 0 (natToDecimalCore fuel n acc) = parseFrom n acc := by
  induction fuel with
  | zero =>
    intro n acc hn
    have : n = 0 := Nat.lt_one_iff.mp (by simpa using hn)
    subst this
    rfl
  | succ fuel ih =>
    intro n acc hn
    unfold natToDecimalCore
    split
    · rename_i h10
      show parseFrom 0 (digitChar n :: acc) = parseFrom n acc
      simp only [parseFrom, List.foldl_cons, Nat.zero_mul, Nat.zero_add]
      rw [digitVal_digitChar h10]
    · rename_i h10
      have hdiv : n / 10 < 10 ^ fuel := by
        rw [Nat.div_lt_iff_lt_mul (by decide)]
        calc n < 10 ^ (fuel + 1) := hn
          _ = 10 ^ fuel * 10 := by rw [Nat.pow_succ]
      rw [ih (n / 10) (digitChar (n % 10) :: acc) hdiv]
      show parseFrom (n / 10) (digitChar (n % 10) :: acc) = parseFrom n acc
      simp only [parseFrom, List.foldl_cons]
      rw [digitVal_digitChar (Nat.mod_lt n (by decide))]
      congr 1
      omega

theorem parseFrom_nil (v : Nat) : parseFrom v [] = v := rfl

theorem lt_ten_pow_succ_self (n : Nat) : n < 10 ^ (n + 1) := by
  calc n < 2 ^ n := Nat.lt_two_pow n
    _ ≤ 10 ^ n := Nat.pow_le_pow_left (by decide) n
    _ ≤ 10 ^ (n + 1) := Nat.pow_le_pow_right (by decide) (Nat.le_succ n)

theorem natToDecimal_inj {m n : Nat}
    (h : (natToDecimal m).data = (natToDecimal n).data) : m = n := by
  have hm := parseFrom_natToDecimalCore (m + 1) m [] (lt_ten_pow_succ_self m)
  have hn := parseFrom_natToDecimalCore (n + 1) n [] (lt_ten_pow_succ_self n)
  have heq : parseFrom 0 (natToDecimal m).data =
      parseFrom 0 (natToDecimal n).data := by rw [h]
  simpa [natToDecimal, hm, hn, parseFrom_nil] using heq

theorem append_dash_inj (a : List Char) :
    ∀ (b x y : List Char), '-' ∉ a → '-' ∉ b →
      a ++ '-' :: x = b ++ '-' :: y → a = b ∧ x = y := by
  induction a with
  | nil =>
    intro b x y _ hb he
    cases b with
    | nil => simpa using he
    | cons c bs =>
      simp only [List.nil_append, List.cons_append, List.cons.injEq] at he
      exact absurd (he.1 ▸ List.mem_cons_self c bs) hb
  | cons c as ih =>
    intro b x y ha hb he
    cases b with
    | nil =>
      simp only [List.cons_append, List.nil_append, List.cons.injEq] at he
      exact absurd (he.1 ▸ List.mem_cons_self c as) ha
    | cons d bs =>
      simp only [List.cons_append, List.cons.injEq] at he
      have ha2 : '-' ∉ as := fun h => ha (List.mem_cons_of_mem c h)
      have hb2 : '-' ∉ bs := fun h => hb (List.mem_cons_of_mem d h)
      obtain ⟨h1, h2⟩ := ih bs x y ha2 hb2 he.2
      exact ⟨by rw [he.1, h1], h2⟩

theorem insertIgnoreAll_spec (ls : List Lead) :
    ∀ store : List Lead, ∃ inserted : List Lead,
      insertIgnoreAll store ls = (store ++ inserted, inserted.length) ∧
      inserted.Sublist ls ∧
      (∀ l ∈ inserted, store.any (fun x => sameUniqueKey x l) = false) := by
  induction ls with
  | nil =>
    intro store
    exact ⟨[], by simp [insertIgnoreAll], List.nil_sublist [], by simp⟩
  | cons l ls ih =>
    intro store
    by_cases h : store.any (fun x => sameUniqueKey x l) = true
    · obtain ⟨ins, he, hsub, hkey⟩ := ih store
      refine ⟨ins, ?_, hsub.cons l, hkey⟩
      simp [insertIgnoreAll, h, he]
    · obtain ⟨ins, he, hsub, hkey⟩ := ih (store ++ [l])
      refine ⟨l :: ins, ?_, hsub.cons₂ l, ?_⟩
      · simp only [insertIgnoreAll, h, if_false, he, Bool.false_eq_true]
        simp [List.append_assoc]
      · intro x hx
        rcases List.mem_cons.mp hx with h2 | h2
        · exact h2 ▸ Bool.eq_false_iff.mpr h
        · have := hkey x h2
          simp only [List.any_append, Bool.or_eq_false_iff] at this
          exact this.1

theorem insertIgnoreAll_count_le (ls : List Lead) :
    ∀ store : List Lead, (insertIgnoreAll store ls).2 ≤ ls.length := by
  induction ls with
  | nil => intro store; simp [insertIgnoreAll]
  | cons l ls ih =>
    intro store
    by_cases h : store.any (fun x => sameUniqueKey x l) = true
    · simp only [insertIgnoreAll, h, if_true]
      exact Nat.le_succ_of_le (ih store)
    · simp only [insertIgnoreAll, h, if_false, Bool.false_eq_true]
      exact Nat.succ_le_succ (ih (store ++ [l]))

theorem bulkCreate_count_le (store : List Lead) (rows : List CsvRow) :
    (bulkCreate store rows).2.1 ≤ rows.length := by
  by_cases h : rows.isEmpty
  · simp [bulkCreate, h]
  · simpa [bulkCreate, h] using
      le_trans (insertIgnoreAll_count_le (rows.map rowToLead) store)
        (le_of_eq (List.length_map rows rowToLead))

theorem insertIgnoreAll_append (xs : List Lead) :
    ∀ (store ys : List Lead),
      insertIgnoreAll store (xs ++ ys) =
        ((insertIgnoreAll (insertIgnoreAll store xs).1 ys).1,
         (insertIgnoreAll store xs).2 +
           (insertIgnoreAll (insertIgnoreAll store xs).1 ys).2) := by
  induction xs with
  | nil => intro store ys; simp [insertIgnoreAll]
  | cons x xs ih =>
    intro store ys
    by_cases h : store.any (fun y => sameUniqueKey y x) = true
    · simp only [List.cons_append, insertIgnoreAll, h, if_true]
      exact ih store ys
    · simp only [List.cons_append, insertIgnoreAll, h, if_false,
        Bool.false_eq_true, List.append_eq]
      rw [ih (store ++ [x]) ys]
      simp only [Prod.mk.injEq]
      exact ⟨trivial, by omega⟩

theorem take_succ_get {α : Type _} (l : List α) :
    ∀ (i : Nat) (hi : i < l.length),
      l.take (i + 1) = l.take i ++ [l.get ⟨i, hi⟩] := by
  induction l with
  | nil => intro i hi; simp at hi
  | cons a l ih =>
    intro i hi
    cases i with
    | zero => simp
    | succ i =>
      have hi2 : i < l.length := Nat.lt_of_succ_lt_succ hi
      simp only [List.take_succ_cons, List.get_cons_succ, ih i hi2]
      rfl

theorem insertIgnoreAll_take_succ (store ls : List Lead) (i : Nat)
    (hi : i < ls.length) :
    insertIgnoreAll store (ls.take (i + 1)) =
      if (insertIgnoreAll store (ls.take i)).1.any
          (fun x => sameUniqueKey x (ls.get ⟨i, hi⟩)) then
        insertIgnoreAll store (ls.take i)
      else ((insertIgnoreAll store (ls.take i)).1 ++ [ls.get ⟨i, hi⟩],
        (insertIgnoreAll store (ls.take i)).2 + 1) := by
  rw [take_succ_get ls i hi, insertIgnoreAll_append]
  by_cases hc : (insertIgnoreAll store (ls.take i)).1.any
      (fun x => sameUniqueKey x (ls.get ⟨i, hi⟩)) = true
  · rw [if_pos hc]
    simp only [insertIgnoreAll, hc, if_true, Nat.add_zero]
  · rw [if_neg hc]
    have hc2 : (insertIgnoreAll store (ls.take i)).1.any
        (fun x => sameUniqueKey x (ls.get ⟨i, hi⟩)) = false :=
      Bool.eq_false_iff.mpr hc
    simp only [insertIgnoreAll, hc2, Bool.false_eq_true, if_false]

theorem processRowsAux_errors (records : List RawRecord) :
    ∀ k : Nat, (processRowsAux k records).2 =
      (List.enumFrom k records).filterMap (fun p => rowErrorFor (p.1 + 1) p.2) := by
  induction records with
  | nil => intro k; simp [processRowsAux, List.enumFrom]
  | cons rec rest ih =>
    intro k
    simp only [processRowsAux, List.enumFrom, List.filterMap_cons]
    cases hv : validateRow (normalizeRecord rec) with
    | error es =>
      simp only [rowErrorFor, hv, ih (k + 1)]
    | ok v =>
      simp only [rowErrorFor, hv, ih (k + 1)]

/-- C1 counterexample: a job whose download step throws is written as
failed with error_report populated, yet `processCsvFile` resolves (its
catch swallows the exception), so the worker still deletes the message;
the claim says the message is NOT deleted on any pipeline exception. -/
theorem c1_counterexample :
    (pollHandleMessage (newCsvLog "f.csv" "csv/1-f.csv" 7)
        (.fail "Failed to download CSV: 500 Internal Server Error")
        [] 10 20 true).1.status = "failed" ∧
    (pollHandleMessage (newCsvLog "f.csv" "csv/1-f.csv" 7)
        (.fail "Failed to download CSV: 500 Internal Server Error")
        [] 10 20 true).1.error_report =
      some "Failed to download CSV: 500 Internal Server Error" ∧
    (pollHandleMessage (newCsvLog "f.csv" "csv/1-f.csv" 7)
        (.fail "Failed to download CSV: 500 Internal Server Error")
        [] 10 20 true).2.2 = true := by
  decide

/-- C1 (amended): the worker deletes the message whenever
`processCsvFile` resolves, which includes the handled failure path: on a
pipeline exception the job is set failed with error_report and
completed_at, and the message IS deleted; the message stays in the queue
only when even the failure-status write throws. -/
theorem c1_ack_and_failure_handling (log : CsvLog) (store : List Lead)
    (startTime endTime : Nat) (msg : String) (records : List RawRecord) :
    (pollHandleMessage log (.ok records) store startTime endTime true).2.2
        = true ∧
    (pollHandleMessage log (.fail msg) store startTime endTime true).1.status
        = "failed" ∧
    (pollHandleMessage log (.fail msg) store startTime endTime
        true).1.error_report = some msg ∧
    (pollHandleMessage log (.fail msg) store startTime endTime
        true).1.completed_at = some endTime ∧
    (pollHandleMessage log (.fail msg) store startTime endTime true).2.2
        = true ∧
    (pollHandleMessage log (.fail msg) store startTime endTime false).2.2
        = false := by
  refine ⟨?_, rfl, rfl, rfl, rfl, rfl⟩
  simp only [pollHandleMessage, processCsvFile]

/-- C2 counterexample: a completed job with one valid row that the bulk
writer suppressed as a duplicate ends with total_rows = 1 but
successful_imports = 0 and failed_imports = 0, violating the claimed
invariant total_rows = successful_imports + failed_imports. -/
theorem c2_counterexample :
    (processCsvFile (newCsvLog "f.csv" "csv/1-f.csv" 7)
        (.ok [[("name", "Alice"), ("phone", "+14155551234"),
               ("email", "a@x.com")]])
        [rowToLead ⟨"Bob", "+14155551234", some "a@x.com", none⟩]
        0 5 true).1.status = "completed" ∧
    (processCsvFile (newCsvLog "f.csv" "csv/1-f.csv" 7)
        (.ok [[("name", "Alice"), ("phone", "+14155551234"),
               ("email", "a@x.com")]])
        [rowToLead ⟨"Bob", "+14155551234", some "a@x.com", none⟩]
        0 5 true).1.total_rows = 1 ∧
    (processCsvFile (newCsvLog "f.csv" "csv/1-f.csv" 7)
        (.ok [[("name", "Alice"), ("phone", "+14155551234"),
               ("email", "a@x.com")]])
        [rowToLead ⟨"Bob", "+14155551234", some "a@x.com", none⟩]
        0 5 true).1.successful_imports = 0 ∧
    (processCsvFile (newCsvLog "f.csv" "csv/1-f.csv" 7)
        (.ok [[("name", "Alice"), ("phone", "+14155551234"),
               ("email", "a@x.com")]])
        [rowToLead ⟨"Bob", "+14155551234", some "a@x.com", none⟩]
        0 5 true).1.total_rows ≠
      (processCsvFile (newCsvLog "f.csv" "csv/1-f.csv" 7)
        (.ok [[("name", "Alice"), ("phone", "+14155551234"),
               ("email", "a@x.com")]])
        [rowToLead ⟨"Bob", "+14155551234", some "a@x.com", none⟩]
        0 5 true).1.successful_imports +
      (processCsvFile (newCsvLog "f.csv" "csv/1-f.csv" 7)
        (.ok [[("name", "Alice"), ("phone", "+14155551234"),
               ("email", "a@x.com")]])
        [rowToLead ⟨"Bob", "+14155551234", some "a@x.com", none⟩]
        0 5 true).1.failed_imports := by
  decide

/-- C2 (amended): for a completed job the persisted counters satisfy
successful_imports + failed_imports ≤ total_rows, and the sum equals
total_rows exactly when no valid row was suppressed as a duplicate by the
bulk writer — that is, exactly when the final lead store is the old store
extended by every valid row (third conjunct); a failed job leaves all
three counters at their prior values, so a job created with zero counters
trivially satisfies the equation there. -/
theorem c2_counters_bound (log : CsvLog) (dl : DownloadOutcome)
    (store : List Lead) (startTime endTime : Nat) (failWriteOk : Bool) :
    ((processCsvFile log dl store startTime endTime failWriteOk).1.status
        = "completed" →
      (processCsvFile log dl store startTime endTime
          failWriteOk).1.successful_imports +
        (processCsvFile log dl store startTime endTime
          failWriteOk).1.failed_imports ≤
        (processCsvFile log dl store startTime endTime
          failWriteOk).1.total_rows) ∧
    ((processCsvFile log dl store startTime endTime failWriteOk).1.status
        = "failed" →
      (processCsvFile log dl store startTime endTime failWriteOk).1.total_rows
          = log.total_rows ∧
      (processCsvFile log dl store startTime endTime
          failWriteOk).1.successful_imports = log.successful_imports ∧
      (processCsvFile log dl store startTime endTime
          failWriteOk).1.failed_imports = log.failed_imports) ∧
    (∀ records : List RawRecord, dl = DownloadOutcome.ok records →
      ((processCsvFile log dl store startTime endTime
            failWriteOk).1.successful_imports +
          (processCsvFile log dl store startTime endTime
            failWriteOk).1.failed_imports =
          (processCsvFile log dl store startTime endTime
            failWriteOk).1.total_rows ↔
        (processCsvFile log dl store startTime endTime failWriteOk).2.1 =
          store ++ (processRows records).1.map rowToLead)) := by
  refine ⟨?_, ?_, ?_⟩
  · cases dl with
    | fail msg => cases failWriteOk <;> simp [processCsvFile]
    | ok records =>
      rcases hpr : processRows records with ⟨rows, errors⟩
      rcases hbc : bulkCreate store rows with ⟨store2, n, b⟩
      intro _
      have hle : n ≤ rows.length := by
        have := bulkCreate_count_le store rows
        rw [hbc] at this
        exact this
      simp only [processCsvFile, hpr, hbc]
      exact Nat.add_le_add_right hle _
  · cases dl with
    | fail msg => cases failWriteOk <;> simp [processCsvFile]
    | ok records =>
      rcases hpr : processRows records with ⟨rows, errors⟩
      rcases hbc : bulkCreate store rows with ⟨store2, n, b⟩
      intro h
      simp [processCsvFile, hpr, hbc] at h
  · intro records hdl
    subst hdl
    rcases hpr : processRows records with ⟨rows, errors⟩
    by_cases hrows : rows.isEmpty
    · have hnil : rows = [] := List.isEmpty_iff.mp hrows
      subst hnil
      have hbc : bulkCreate store [] = (store, 0, false) := by
        simp [bulkCreate]
      simp [processCsvFile, hpr, hbc]
    · obtain ⟨ins, he, hsub, _⟩ :=
        insertIgnoreAll_spec (rows.map rowToLead) store
      have hbc : bulkCreate store rows = (store ++ ins, ins.length, true) := by
        simp [bulkCreate, hrows, he]
      simp only [processCsvFile, hpr, hbc]
      constructor
      · intro h
        have hlen : ins.length = (rows.map rowToLead).length := by
          rw [List.length_map]
          omega
        rw [hsub.eq_of_length hlen]
      · intro h
        have hins : ins = rows.map rowToLead :=
          List.append_cancel_left h
        have : ins.length = rows.length := by
          rw [hins, List.length_map]
        omega

theorem c2_counters_bound_witness :
    ((processCsvFile (newCsvLog "f.csv" "csv/1-f.csv" 7) (.ok []) [] 0 0
        true).1.successful_imports +
      (processCsvFile (newCsvLog "f.csv" "csv/1-f.csv" 7) (.ok []) [] 0 0
        true).1.failed_imports ≤
      (processCsvFile (newCsvLog "f.csv" "csv/1-f.csv" 7) (.ok []) [] 0 0
        true).1.total_rows) ∧
    ((processCsvFile (newCsvLog "f.csv" "csv/1-f.csv" 7) (.ok []) [] 0 0
        true).1.successful_imports +
        (processCsvFile (newCsvLog "f.csv" "csv/1-f.csv" 7) (.ok []) [] 0 0
          true).1.failed_imports =
        (processCsvFile (newCsvLog "f.csv" "csv/1-f.csv" 7) (.ok []) [] 0 0
          true).1.total_rows ↔
      (processCsvFile (newCsvLog "f.csv" "csv/1-f.csv" 7) (.ok []) [] 0 0
        true).2.1 = [] ++ (processRows []).1.map rowToLead) :=
  ⟨(c2_counters_bound (newCsvLog "f.csv" "csv/1-f.csv" 7) (.ok []) [] 0 0
      true).1 (by decide),
   (c2_counters_bound (newCsvLog "f.csv" "csv/1-f.csv" 7) (.ok []) [] 0 0
      true).2.2 [] rfl⟩

/-- C3 counterexample: the store already holds a lead with the same phone
(different email); the claim says the new row must be silently skipped, but
the unique key is the composite (phone, email), so the row is inserted and
counted. -/
theorem c3_counterexample :
    (List.any [rowToLead ⟨"Bob", "+14155551234", some "a@x.com", none⟩]
        (fun x => x.phone ==
          (rowToLead ⟨"Alice", "+14155551234", some "b@x.com", none⟩).phone))
      = true ∧
    (bulkCreate [rowToLead ⟨"Bob", "+14155551234", some "a@x.com", none⟩]
        [⟨"Alice", "+14155551234", some "b@x.com", none⟩]).2.1 = 1 ∧
    (bulkCreate [rowToLead ⟨"Bob", "+14155551234", some "a@x.com", none⟩]
        [⟨"Alice", "+14155551234", some "b@x.com", none⟩]).1 =
      [rowToLead ⟨"Bob", "+14155551234", some "a@x.com", none⟩,
       rowToLead ⟨"Alice", "+14155551234", some "b@x.com", none⟩] := by
  decide

/-- C3 (amended): the bulk writer processes the value tuples in order;
the tuple at position i is appended to the store exactly when its
composite unique key (phone, email) — with a NULL email never colliding —
collides with no lead in the store-so-far, which is the pre-existing
store plus precisely the tuples inserted earlier in the same batch, and
is skipped with the count unchanged exactly when it does collide (first
conjunct, an if-characterization giving both directions per step); for a
nonempty batch bulkCreate is exactly that single statement (second
conjunct); in aggregate, pre-existing rows are left unmodified, the
returned count equals the number of newly inserted rows, every inserted
lead comes from the batch and collides with nothing pre-existing, and a
row whose key collides with the pre-existing store is never inserted
(third conjunct). -/
theorem c3_bulk_writer_dedup (store : List Lead) (rows : List CsvRow) :
    (∀ (i : Nat) (hi : i < (rows.map rowToLead).length),
      insertIgnoreAll store ((rows.map rowToLead).take (i + 1)) =
        if (insertIgnoreAll store ((rows.map rowToLead).take i)).1.any
            (fun x => sameUniqueKey x ((rows.map rowToLead).get ⟨i, hi⟩))
        then insertIgnoreAll store ((rows.map rowToLead).take i)
        else ((insertIgnoreAll store ((rows.map rowToLead).take i)).1 ++
            [(rows.map rowToLead).get ⟨i, hi⟩],
          (insertIgnoreAll store ((rows.map rowToLead).take i)).2 + 1)) ∧
    (rows ≠ [] → bulkCreate store rows =
      ((insertIgnoreAll store (rows.map rowToLead)).1,
       (insertIgnoreAll store (rows.map rowToLead)).2, true)) ∧
    (∃ inserted : List Lead,
      (bulkCreate store rows).1 = store ++ inserted ∧
      (bulkCreate store rows).2.1 = inserted.length ∧
      (∀ l ∈ inserted, ∃ r ∈ rows, l = rowToLead r) ∧
      (∀ l ∈ inserted, store.any (fun x => sameUniqueKey x l) = false) ∧
      (∀ r ∈ rows, store.any (fun x => sameUniqueKey x (rowToLead r)) = true →
        rowToLead r ∉ inserted)) := by
  refine ⟨fun i hi => insertIgnoreAll_take_succ store (rows.map rowToLead) i hi,
    ?_, ?_⟩
  · intro hne
    have hrows : rows.isEmpty = false := by
      simpa [List.isEmpty_iff] using hne
    simp [bulkCreate, hrows]
  · by_cases hrows : rows.isEmpty
    · refine ⟨[], by simp [bulkCreate, hrows], by simp [bulkCreate, hrows],
        by simp, by simp, by simp⟩
    · obtain ⟨ins, he, hsub, hkey⟩ :=
        insertIgnoreAll_spec (rows.map rowToLead) store
      refine ⟨ins, ?_, ?_, ?_, hkey, ?_⟩
      · simp [bulkCreate, hrows, he]
      · simp [bulkCreate, hrows, he]
      · intro l hl
        rcases List.mem_map.mp (hsub.subset hl) with ⟨r, hr, hrl⟩
        exact ⟨r, hr, hrl.symm⟩
      · intro r _ hdup hins
        have := hkey (rowToLead r) hins
        rw [hdup] at this
        exact Bool.noConfusion this

theorem c3_bulk_writer_dedup_witness :
    (insertIgnoreAll [rowToLead ⟨"Bob", "+14155551234", some "a@x.com", none⟩]
        (([(⟨"Alice", "+15550001111", some "c@x.com", none⟩ : CsvRow)].map
          rowToLead).take (0 + 1)) =
      ((insertIgnoreAll
          [rowToLead ⟨"Bob", "+14155551234", some "a@x.com", none⟩]
          (([(⟨"Alice", "+15550001111", some "c@x.com", none⟩ : CsvRow)].map
            rowToLead).take 0)).1 ++
        [([(⟨"Alice", "+15550001111", some "c@x.com", none⟩ : CsvRow)].map
            rowToLead).get ⟨0, by decide⟩],
       (insertIgnoreAll
          [rowToLead ⟨"Bob", "+14155551234", some "a@x.com", none⟩]
          (([(⟨"Alice", "+15550001111", some "c@x.com", none⟩ : CsvRow)].map
            rowToLead).take 0)).2 + 1)) ∧
    bulkCreate [rowToLead ⟨"Bob", "+14155551234", some "a@x.com", none⟩]
        [⟨"Alice", "+15550001111", some "c@x.com", none⟩] =
      ((insertIgnoreAll
          [rowToLead ⟨"Bob", "+14155551234", some "a@x.com", none⟩]
          ([(⟨"Alice", "+15550001111", some "c@x.com", none⟩ : CsvRow)].map
            rowToLead)).1,
       (insertIgnoreAll
          [rowToLead ⟨"Bob", "+14155551234", some "a@x.com", none⟩]
          ([(⟨"Alice", "+15550001111", some "c@x.com", none⟩ : CsvRow)].map
            rowToLead)).2, true) ∧
    (∃ inserted : List Lead,
      (bulkCreate [rowToLead ⟨"Bob", "+14155551234", some "a@x.com", none⟩]
          [⟨"Alice", "+15550001111", some "c@x.com", none⟩]).1 =
        [rowToLead ⟨"Bob", "+14155551234", some "a@x.com", none⟩] ++
          inserted ∧
      (bulkCreate [rowToLead ⟨"Bob", "+14155551234", some "a@x.com", none⟩]
          [⟨"Alice", "+15550001111", some "c@x.com", none⟩]).2.1 =
        inserted.length ∧
      (∀ l ∈ inserted,
        ∃ r ∈ [(⟨"Alice", "+15550001111", some "c@x.com", none⟩ : CsvRow)],
          l = rowToLead r) ∧
      (∀ l ∈ inserted,
        (List.any [rowToLead ⟨"Bob", "+14155551234", some "a@x.com", none⟩]
          (fun x => sameUniqueKey x l)) = false) ∧
      (∀ r ∈ [(⟨"Alice", "+15550001111", some "c@x.com", none⟩ : CsvRow)],
        (List.any [rowToLead ⟨"Bob", "+14155551234", some "a@x.com", none⟩]
          (fun x => sameUniqueKey x (rowToLead r))) = true →
          rowToLead r ∉ inserted)) := by
  have h := c3_bulk_writer_dedup
    [rowToLead ⟨"Bob", "+14155551234", some "a@x.com", none⟩]
    [⟨"Alice", "+15550001111", some "c@x.com", none⟩]
  refine ⟨?_, h.2.1 (by decide), h.2.2⟩
  have hstep := h.1 0 (by decide)
  rw [if_neg (by decide)] at hstep
  exact hstep

/-- C4 counterexample: the value 5551234 does match the anchored pattern
of csvRowSchema (a digit 1-9 followed by up to 14 digits, plus sign
optional), so the validator accepts it, while the claim lists it as a
value that must be rejected. -/
theorem c4_counterexample :
    phoneMatches "5551234" = true ∧
    validateRow [("name", "Alice"), ("phone", "5551234")] =
      .ok ⟨"Alice", "5551234", none, none⟩ := by
  decide

/-- C4 (amended): every phone value not matching the pattern fails with a
phone-specific error; +14155551234 is accepted and ++1 rejected, but
5551234 also matches the pattern and is accepted. -/
theorem c4_phone_validation :
    (∀ (rec : RawRecord) (p : String), List.lookup "phone" rec = some p →
      phoneMatches p = false →
      ∃ es, validateRow rec = .error es ∧ ∃ e ∈ es, e.field = "phone") ∧
    phoneMatches "+14155551234" = true ∧
    phoneMatches "5551234" = true ∧
    phoneMatches "++1" = false := by
  refine ⟨?_, by decide, by decide, by decide⟩
  intro rec p hl hm
  have hphone : ∃ e ∈ phoneErrors rec, e.field = "phone" := by
    simp only [phoneErrors, hl]
    by_cases hp : p = ""
    · simp [hp]
    · simp [hp, hm]
  obtain ⟨e, he, hef⟩ := hphone
  have hmem : e ∈ rowFieldErrors rec := by
    simp only [rowFieldErrors]
    exact List.mem_append_left _ (List.mem_append_left _
      (List.mem_append_right _ he))
  have hne : rowFieldErrors rec ≠ [] := List.ne_nil_of_mem hmem
  refine ⟨rowFieldErrors rec, ?_, e, hmem, hef⟩
  simp only [validateRow]
  rw [if_neg]
  simp [List.isEmpty_iff, hne]

theorem c4_phone_validation_witness :
    ∃ es, validateRow [("name", "Alice"), ("phone", "++1")] = .error es ∧
      ∃ e ∈ es, e.field = "phone" :=
  c4_phone_validation.1 [("name", "Alice"), ("phone", "++1")] "++1"
    (by decide) (by decide)

/-- C5 counterexample: the concrete queue message carries none of the
claimed field names jobId, storageKey, uploaderId; the correlation id
travels under csvLogId instead. -/
theorem c5_counterexample :
    List.lookup "jobId"
        (sendToProcessingQueue "abc" "csv/1-f.csv" 7).bodyFields = none ∧
    List.lookup "storageKey"
        (sendToProcessingQueue "abc" "csv/1-f.csv" 7).bodyFields = none ∧
    List.lookup "uploaderId"
        (sendToProcessingQueue "abc" "csv/1-f.csv" 7).bodyFields = none ∧
    List.lookup "csvLogId"
        (sendToProcessingQueue "abc" "csv/1-f.csv" 7).bodyFields =
      some (.jstr "abc") := by
  decide

/-- C5 (amended): each job descriptor is a JSON body with the fields
csvLogId (string), s3Key (string), userId (number), carrying the single
string message attribute jobType = csv_processing, and the worker reads
csvLogId and s3Key back from exactly that shape. -/
theorem c5_message_shape (csvLogId s3Key : String) (userId : Int) :
    (sendToProcessingQueue csvLogId s3Key userId).bodyFields =
      [("csvLogId", .jstr csvLogId), ("s3Key", .jstr s3Key),
       ("userId", .jnum userId)] ∧
    (sendToProcessingQueue csvLogId s3Key userId).attributes =
      [("jobType", "String", "csv_processing")] ∧
    workerReadsJob (sendToProcessingQueue csvLogId s3Key userId) =
      (some (.jstr csvLogId), some (.jstr s3Key)) := by
  refine ⟨rfl, rfl, ?_⟩
  simp [workerReadsJob, sendToProcessingQueue, List.lookup]

/-- C6 counterexample: two distinct original filenames sanitize to the
same string, so two uploads in the same millisecond receive the same
storage key and would overwrite each other's staged bytes. -/
theorem c6_counterexample :
    generateCsvKey 1700000000000 "a b.csv" =
      generateCsvKey 1700000000000 "a_b.csv" ∧
    ("a b.csv" : String) ≠ "a_b.csv" := by
  decide

/-- C6 (amended): the storage key is csv/ + timestamp + - + sanitized
name and nothing else, so two invocations collide exactly when their
millisecond timestamps are equal and their whitespace-sanitized filenames
are equal; keys are distinct whenever the timestamps differ, but
same-millisecond uploads with names sanitizing alike do collide. -/
theorem c6_key_characterization (n1 n2 : Nat) (f1 f2 : String) :
    generateCsvKey n1 f1 = generateCsvKey n2 f2 ↔
      (n1 = n2 ∧ sanitizeFileName f1 = sanitizeFileName f2) := by
  constructor
  · intro h
    have hd := congrArg String.data h
    simp only [generateCsvKey, String.data_append] at hd
    have h2 : (natToDecimal n1).data ++ '-' :: (sanitizeFileName f1).data =
        (natToDecimal n2).data ++ '-' :: (sanitizeFileName f2).data := by
      simpa using hd
    obtain ⟨hdec, hsan⟩ := append_dash_inj (natToDecimal n1).data
      (natToDecimal n2).data (sanitizeFileName f1).data
      (sanitizeFileName f2).data (dash_not_mem_natToDecimal n1)
      (dash_not_mem_natToDecimal n2) h2
    refine ⟨natToDecimal_inj hdec, ?_⟩
    cases hsf1 : sanitizeFileName f1 with
    | mk d1 =>
      cases hsf2 : sanitizeFileName f2 with
      | mk d2 =>
        rw [hsf1, hsf2] at hsan
        exact congrArg String.mk (by simpa using hsan)
  · rintro ⟨rfl, hs⟩
    simp [generateCsvKey, hs]

/-- C7 counterexample: the name value consisting of a single letter padded
by spaces has raw length 3 and trimmed length 1; the claim requires
rejection (trimmed length below 2), but Joi checks the raw length and the
validator accepts the record. -/
theorem c7_counterexample :
    validateRow [("name", " A "), ("phone", "+14155551234")] =
      .ok ⟨" A ", "+14155551234", none, none⟩ ∧
    (trimChars (" A " : String).data).length = 1 ∧
    (" A " : String).length = 3 := by
  decide

/-- C7 (amended): the validator accepts the name field exactly when it is
present with raw (untrimmed) length in [2, 255]; a record missing name or
with raw length out of bounds yields a validation error and never a
contact row. -/
theorem c7_name_validation (rec : RawRecord) :
    ((∃ s, List.lookup "name" rec = some s ∧ 2 ≤ s.length ∧ s.length ≤ 255)
      ↔ nameErrors rec = []) ∧
    (nameErrors rec ≠ [] → ∃ es, validateRow rec = .error es) ∧
    (∀ row : CsvRow, validateRow rec = .ok row →
      List.lookup "name" rec = some row.name ∧ 2 ≤ row.name.length ∧
        row.name.length ≤ 255) := by
  have hiff : (∃ s, List.lookup "name" rec = some s ∧ 2 ≤ s.length ∧
      s.length ≤ 255) ↔ nameErrors rec = [] := by
    cases hl : List.lookup "name" rec with
    | none => simp [nameErrors, hl]
    | some s =>
      by_cases hs : s = ""
      · subst hs
        simp [nameErrors, hl]
      · simp only [nameErrors, hl, hs, if_false]
        constructor
        · rintro ⟨t, ht, h2, h255⟩
          obtain rfl : t = s := by simpa using ht.symm
          rw [if_neg (by omega), if_neg (by omega)]
          rfl
        · intro h
          rcases List.append_eq_nil.mp h with ⟨h1, h2⟩
          refine ⟨s, rfl, ?_, ?_⟩
          · by_contra hc
            rw [if_pos (by omega)] at h1
            exact List.noConfusion h1
          · by_contra hc
            rw [if_pos (by omega)] at h2
            exact List.noConfusion h2
  have herr : nameErrors rec ≠ [] → ∃ es, validateRow rec = .error es := by
    intro hne
    have hmem : rowFieldErrors rec ≠ [] := by
      intro h
      rcases List.exists_mem_of_ne_nil _ hne with ⟨e, he⟩
      have : e ∈ rowFieldErrors rec :=
        List.mem_append_left _ (List.mem_append_left _
          (List.mem_append_left _ he))
      rw [h] at this
      simp at this
    refine ⟨rowFieldErrors rec, ?_⟩
    simp only [validateRow]
    rw [if_neg]
    simp [List.isEmpty_iff, hmem]
  refine ⟨hiff, herr, ?_⟩
  intro row hok
  have hempty : (rowFieldErrors rec).isEmpty = true := by
    by_contra hc
    simp only [validateRow] at hok
    rw [if_neg hc] at hok
    exact Except.noConfusion hok
  have hnil : rowFieldErrors rec = [] := by
    simpa [List.isEmpty_iff] using hempty
  have hname : nameErrors rec = [] := by
    have := congrArg (fun l => l.isEmpty) hnil
    simp only [rowFieldErrors] at hnil
    rcases List.append_eq_nil.mp
      (List.append_eq_nil.mp (List.append_eq_nil.mp hnil).1).1 with ⟨h1, _⟩
    exact h1
  obtain ⟨s, hls, h2, h255⟩ := hiff.mpr hname
  have hrow : row.name = s := by
    simp only [validateRow] at hok
    rw [if_pos hempty] at hok
    injection hok with h
    rw [← h]
    simp [hls]
  exact ⟨by rw [hrow]; exact hls, by rw [hrow]; exact h2,
    by rw [hrow]; exact h255⟩

theorem c7_name_validation_witness :
    ∃ es, validateRow [("name", "A"), ("phone", "+14155551234")] =
      .error es :=
  (c7_name_validation [("name", "A"), ("phone", "+14155551234")]).2.1
    (by decide)

/-- C8: the row number recorded in each validation error is the 1-based
index of the data row (csv-parser consumes the header, the counter is
incremented before each data record), and the concrete 3-data-row CSV with
an invalid second row yields exactly one error entry with row_number 2. -/
theorem c8_row_numbering :
    (∀ records : List RawRecord,
      (processRows records).2 =
        records.enum.filterMap (fun p => rowErrorFor (p.1 + 1) p.2)) ∧
    (processRows
        [[("name", "Alice"), ("phone", "+14155551234")],
         [("name", "B"), ("phone", "+14155551234")],
         [("name", "Carol"), ("phone", "+14155551234")]]).2 =
      [⟨2, [("name", "B"), ("phone", "+14155551234")],
        "name length must be at least 2 characters long"⟩] := by
  constructor
  · intro records
    rw [processRows, processRowsAux_errors records 0]
    rfl
  · decide

/-- C9: a non-CSV MIME type or a size above 10 MiB is rejected with a
client error before any effect: no object-store write, no status record,
no queue message. -/
theorem c9_reject_before_state (mimetype : String) (size : Nat)
    (fileName : String) (now : Nat)
    (h : (mimetype ≠ "text/csv" ∧ mimetype ≠ "application/vnd.ms-excel") ∨
      10 * 1024 * 1024 < size) :
    (uploadCsvForProcessing mimetype size fileName now).1 = [] ∧
    ∃ e, (uploadCsvForProcessing mimetype size fileName now).2 =
      .error e := by
  by_cases hm : mimetype ≠ "text/csv" ∧ mimetype ≠ "application/vnd.ms-excel"
  · simp [uploadCsvForProcessing, hm]
  · rcases h with h | h
    · exact absurd h hm
    · simp [uploadCsvForProcessing, hm, h]

theorem c9_reject_before_state_witness :
    (uploadCsvForProcessing "application/json" 5 "f.csv" 0).1 = [] ∧
    ∃ e, (uploadCsvForProcessing "application/json" 5 "f.csv" 0).2 =
      .error e :=
  c9_reject_before_state "application/json" 5 "f.csv" 0
    (Or.inl (by decide))

/-- C10: every lead the bulk writer persists beyond the pre-existing store
is the image of an input row, created with status new and with source
equal to the row's source when present and non-empty, csv_import
otherwise; the empty batch returns 0 without issuing a store operation. -/
theorem c10_bulk_create_defaults (store : List Lead) (rows : List CsvRow) :
    (rows = [] → bulkCreate store rows = (store, 0, false)) ∧
    (∀ l ∈ (bulkCreate store rows).1, l ∈ store ∨
      ∃ r ∈ rows, l = rowToLead r ∧ l.status = "new" ∧
        ((∃ s, r.source = some s ∧ s ≠ "" ∧ l.source = s) ∨
          ((r.source = none ∨ r.source = some "") ∧
            l.source = "csv_import"))) := by
  constructor
  · rintro rfl
    simp [bulkCreate]
  · intro l hl
    by_cases hrows : rows.isEmpty
    · left
      have hnil : rows = [] := List.isEmpty_iff.mp hrows
      subst hnil
      simpa [bulkCreate] using hl
    · obtain ⟨ins, he, hsub, _⟩ :=
        insertIgnoreAll_spec (rows.map rowToLead) store
      have hstore : (bulkCreate store rows).1 = store ++ ins := by
        simp [bulkCreate, hrows, he]
      rw [hstore] at hl
      rcases List.mem_append.mp hl with h | h
      · exact Or.inl h
      · right
        rcases List.mem_map.mp (hsub.subset h) with ⟨r, hr, hrl⟩
        refine ⟨r, hr, hrl.symm, ?_, ?_⟩
        · rw [← hrl]
          rfl
        · rw [← hrl]
          rcases hs : r.source with _ | s
          · exact Or.inr ⟨Or.inl rfl, by simp [rowToLead, hs]⟩
          · by_cases hse : s = ""
            · subst hse
              exact Or.inr ⟨Or.inr rfl, by simp [rowToLead, hs]⟩
            · exact Or.inl ⟨s, rfl, hse, by simp [rowToLead, hs, hse]⟩

theorem c10_bulk_create_defaults_witness :
    bulkCreate ([] : List Lead) ([] : List CsvRow) = ([], 0, false) ∧
    (rowToLead ⟨"Alice", "+14155551234", none, some "web"⟩ ∈
        ([] : List Lead) ∨
      ∃ r ∈ [(⟨"Alice", "+14155551234", none, some "web"⟩ : CsvRow)],
        rowToLead ⟨"Alice", "+14155551234", none, some "web"⟩ =
            rowToLead r ∧
          (rowToLead ⟨"Alice", "+14155551234", none, some "web"⟩).status =
            "new" ∧
          ((∃ s, r.source = some s ∧ s ≠ "" ∧
              (rowToLead
                ⟨"Alice", "+14155551234", none, some "web"⟩).source = s) ∨
            ((r.source = none ∨ r.source = some "") ∧
              (rowToLead
                ⟨"Alice", "+14155551234", none, some "web"⟩).source =
                "csv_import"))) :=
  ⟨(c10_bulk_create_defaults [] []).1 rfl,
   (c10_bulk_create_defaults []
      [⟨"Alice", "+14155551234", none, some "web"⟩]).2
      (rowToLead ⟨"Alice", "+14155551234", none, some "web"⟩) (by decide)⟩

end Unite

